import Mathlib

/-!
Shallow embedding of `backend/main.py` (smart-home pump backend) and proofs
about its connection registry, broadcast relay, status cache, command
endpoints, request-size middleware and route table.

Channels (WebSocket objects) are modelled by natural-number identities;
Python `int` is modelled by `Int`; a raised exception is modelled by
`Except.error`.
-/

/-- A channel identity (one open WebSocket). -/
abbrev Channel := Nat

namespace ConnectionManager

/-- `ConnectionManager.connect` (main.py lines 64-67): after the accept
handshake the code runs `self.clients.append(ws)` — an unconditional append
at the end of the list. -/
def connect (clients : List Channel) (ws : Channel) : List Channel :=
  clients ++ [ws]

/-- `ConnectionManager.disconnect` (main.py lines 69-71): the code runs
`self.clients.remove(ws)`, Python list-remove semantics: the first
occurrence equal to `ws` is removed; when no element equals `ws` a
`ValueError` is raised (modelled as `Except.error`), leaving the list
unchanged. -/
def disconnect (clients : List Channel) (ws : Channel) : Except String (List Channel) :=
  if ws ∈ clients then .ok (clients.erase ws) else .error "ValueError"

end ConnectionManager

/-- One registry operation, as performed by the WebSocket handlers. -/
inductive RegOp
  | connect (c : Channel)
  | disconnect (c : Channel)
deriving DecidableEq

/-- Run a sequence of registry operations from a given collection state,
propagating the `ValueError` that `disconnect` can raise. -/
def runOps (s : List Channel) : List RegOp → Except String (List Channel)
  | [] => .ok s
  | RegOp.connect c :: rest => runOps (ConnectionManager.connect s c) rest
  | RegOp.disconnect c :: rest =>
      match ConnectionManager.disconnect s c with
      | .ok s' => runOps s' rest
      | .error e => .error e

/-- The channels passed to `connect` in an operation sequence, in order. -/
def connects : List RegOp → List Channel
  | [] => []
  | RegOp.connect c :: rest => c :: connects rest
  | RegOp.disconnect _ :: rest => connects rest

/-- The channels passed to `disconnect` in an operation sequence, in order. -/
def disconnects : List RegOp → List Channel
  | [] => []
  | RegOp.connect _ :: rest => disconnects rest
  | RegOp.disconnect c :: rest => c :: disconnects rest

/-- Every `disconnect` in the sequence targets a channel present in the
collection at the moment it runs (so Python `list.remove` never raises). -/
def presenceValid (s : List Channel) : List RegOp → Bool
  | [] => true
  | RegOp.connect c :: rest => presenceValid (s ++ [c]) rest
  | RegOp.disconnect c :: rest => decide (c ∈ s) && presenceValid (s.erase c) rest

lemma erase_nodup {l : List Channel} (h : l.Nodup) (a : Channel) :
    (l.erase a).Nodup := h.sublist (l.erase_sublist a)

lemma mem_erase_of_nodup {l : List Channel} (h : l.Nodup) (a x : Channel) :
    x ∈ l.erase a ↔ x ≠ a ∧ x ∈ l := by
  induction l with
  | nil => simp
  | cons y ys ih =>
      rcases List.nodup_cons.mp h with ⟨hy, hys⟩
      by_cases hya : y = a
      · subst hya
        rw [List.erase_cons_head]
        constructor
        · intro hx
          exact ⟨fun hxa => hy (hxa ▸ hx), .tail _ hx⟩
        · rintro ⟨hxa, hx⟩
          rcases List.mem_cons.mp hx with rfl | hx
          · exact absurd rfl hxa
          · exact hx
      · rw [List.erase_cons_tail (by simpa using hya)]
        simp only [List.mem_cons, ih hys]
        constructor
        · rintro (rfl | ⟨hxa, hx⟩)
          · exact ⟨hya, .inl rfl⟩
          · exact ⟨hxa, .inr hx⟩
        · rintro ⟨hxa, rfl | hx⟩
          · exact .inl rfl
          · exact .inr ⟨hxa, hx⟩

/-- Core lemma: from a duplicate-free state disjoint from the channels yet to
be connected, a presence-valid sequence with pairwise-distinct connects
succeeds, keeps the collection duplicate-free, and yields exactly the
channels present-or-connected and not disconnected. -/
lemma runOps_mem (ops : List RegOp) :
    ∀ s : List Channel, s.Nodup → (connects ops).Nodup →
    (∀ x ∈ s, x ∉ connects ops) → presenceValid s ops = true →
    ∃ m, runOps s ops = .ok m ∧ m.Nodup ∧
      (∀ x, x ∈ m ↔ (x ∈ s ∨ x ∈ connects ops) ∧ x ∉ disconnects ops) := by
  induction ops with
  | nil =>
      intro s hs _ _ _
      exact ⟨s, rfl, hs, by simp [connects, disconnects]⟩
  | cons op rest ih =>
      intro s hs hc hdisj hpres
      cases op with
      | connect c =>
          simp only [connects] at hc
          rcases List.nodup_cons.mp hc with ⟨hcC, hC⟩
          have hcs : c ∉ s := fun hmem => (hdisj c hmem) (by simp [connects])
          have hs' : (s ++ [c]).Nodup := by
            rw [List.nodup_append]
            refine ⟨hs, List.nodup_singleton c, ?_⟩
            intro x hx hxc
            simp only [List.mem_singleton] at hxc
            subst hxc
            exact hcs hx
          have hdisj' : ∀ x ∈ s ++ [c], x ∉ connects rest := by
            intro x hx
            rcases List.mem_append.mp hx with hx | hx
            · intro hcon
              exact (hdisj x hx) (by simp [connects, hcon])
            · simp only [List.mem_singleton] at hx
              subst hx
              exact hcC
          have hpres' : presenceValid (s ++ [c]) rest = true := hpres
          rcases ih (s ++ [c]) hs' hC hdisj' hpres' with ⟨m, hrun, hmnd, hmem⟩
          refine ⟨m, ?_, hmnd, ?_⟩
          · simpa [runOps, ConnectionManager.connect] using hrun
          · intro x
            rw [hmem x]
            simp only [connects, disconnects, List.mem_append,
              List.mem_singleton, List.mem_cons]
            tauto
      | disconnect c =>
          simp only [presenceValid, Bool.and_eq_true, decide_eq_true_eq] at hpres
          rcases hpres with ⟨hcs, hpres'⟩
          simp only [connects] at hc hdisj
          have hccon : c ∉ connects rest := hdisj c hcs
          have hs' : (s.erase c).Nodup := erase_nodup hs c
          have hdisj' : ∀ x ∈ s.erase c, x ∉ connects rest := by
            intro x hx
            exact hdisj x ((mem_erase_of_nodup hs c x).mp hx).2
          rcases ih (s.erase c) hs' hc hdisj' hpres' with ⟨m, hrun, hmnd, hmem⟩
          refine ⟨m, ?_, hmnd, ?_⟩
          · simpa [runOps, ConnectionManager.disconnect, hcs] using hrun
          · intro x
            rw [hmem x, mem_erase_of_nodup hs c x]
            simp only [connects, disconnects, List.mem_cons]
            by_cases hxc : x = c
            · subst hxc
              constructor
              · rintro ⟨hl, -⟩
                rcases hl with ⟨hne, -⟩ | hC
                · exact absurd rfl hne
                · exact absurd hC hccon
              · rintro ⟨-, hr⟩
                exact absurd (Or.inl rfl) hr
            · constructor
              · rintro ⟨hl, hr⟩
                refine ⟨?_, ?_⟩
                · rcases hl with ⟨-, hxs⟩ | hC
                  · exact Or.inl hxs
                  · exact Or.inr hC
                · intro hmem2
                  rcases hmem2 with heq | hD
                  · exact hxc heq
                  · exact hr hD
              · rintro ⟨hl, hr⟩
                refine ⟨?_, fun hD => hr (Or.inr hD)⟩
                rcases hl with hxs | hC
                · exact Or.inl ⟨hxc, hxs⟩
                · exact Or.inr hC

/-- C1 — counterexample. The claim says `disconnect(c)` for an absent `c` is
a safe no-op that does not fail; in the code `self.clients.remove(ws)`
raises `ValueError` when `ws` is not in the list, so running a single
disconnect of channel 0 on an empty registry fails. -/
theorem disconnect_absent_raises :
    runOps [] [RegOp.disconnect 0] = .error "ValueError" := rfl

/-- C1 (amended) — for every sequence of connect/disconnect operations in
which each channel is connected at most once and every disconnect targets a
channel currently in the registry, the run succeeds without error and the
final membership is exactly the channels connected and not disconnected.
(The original claim's further assertion that disconnecting an absent channel
is a safe no-op fails on the code: `list.remove` raises `ValueError`.) -/
theorem registry_membership_correct (ops : List RegOp)
    (hc : (connects ops).Nodup) (hpres : presenceValid [] ops = true) :
    ∃ m, runOps [] ops = .ok m ∧ m.Nodup ∧
      (∀ x, x ∈ m ↔ x ∈ connects ops ∧ x ∉ disconnects ops) := by
  rcases runOps_mem ops [] (List.nodup_nil) hc (by simp) hpres with
    ⟨m, hrun, hnd, hmem⟩
  refine ⟨m, hrun, hnd, fun x => ?_⟩
  rw [hmem x]
  simp

/-- C1 — witness: the amended theorem applied to the concrete sequence
connect 5, connect 7, disconnect 5. -/
theorem registry_membership_correct_witness :
    (connects [RegOp.connect 5, RegOp.connect 7, RegOp.disconnect 5]).Nodup ∧
    presenceValid [] [RegOp.connect 5, RegOp.connect 7, RegOp.disconnect 5] = true ∧
    ∃ m, runOps [] [RegOp.connect 5, RegOp.connect 7, RegOp.disconnect 5] = .ok m ∧
      m.Nodup ∧
      (∀ x, x ∈ m ↔
        x ∈ connects [RegOp.connect 5, RegOp.connect 7, RegOp.disconnect 5] ∧
        x ∉ disconnects [RegOp.connect 5, RegOp.connect 7, RegOp.disconnect 5]) :=
  ⟨by decide, by decide,
    registry_membership_correct [RegOp.connect 5, RegOp.connect 7, RegOp.disconnect 5]
      (by decide) (by decide)⟩

/-- One operation on the whole server: connect/disconnect on either of the
two module-level managers (`esp_manager`, `client_manager`, main.py lines
82-83) or a broadcast on either group. `broadcast` (lines 73-79) never
mutates `self.clients`, so broadcast operations leave both registries
unchanged. -/
inductive SysOp
  | espConnect (c : Channel)
  | espDisconnect (c : Channel)
  | clientConnect (c : Channel)
  | clientDisconnect (c : Channel)
  | espBroadcast
  | clientBroadcast
deriving DecidableEq

/-- Run a sequence of system operations on the pair
(esp registry, client registry). -/
def sysRun (st : List Channel × List Channel) :
    List SysOp → Except String (List Channel × List Channel)
  | [] => .ok st
  | SysOp.espConnect c :: rest =>
      sysRun (ConnectionManager.connect st.1 c, st.2) rest
  | SysOp.espDisconnect c :: rest =>
      match ConnectionManager.disconnect st.1 c with
      | .ok s' => sysRun (s', st.2) rest
      | .error e => .error e
  | SysOp.clientConnect c :: rest =>
      sysRun (st.1, ConnectionManager.connect st.2 c) rest
  | SysOp.clientDisconnect c :: rest =>
      match ConnectionManager.disconnect st.2 c with
      | .ok s' => sysRun (st.1, s') rest
      | .error e => .error e
  | SysOp.espBroadcast :: rest => sysRun st rest
  | SysOp.clientBroadcast :: rest => sysRun st rest

/-- Projection of a system-operation sequence onto the esp registry. -/
def projEsp : List SysOp → List RegOp
  | [] => []
  | SysOp.espConnect c :: rest => RegOp.connect c :: projEsp rest
  | SysOp.espDisconnect c :: rest => RegOp.disconnect c :: projEsp rest
  | _ :: rest => projEsp rest

/-- Projection of a system-operation sequence onto the client registry. -/
def projClient : List SysOp → List RegOp
  | [] => []
  | SysOp.clientConnect c :: rest => RegOp.connect c :: projClient rest
  | SysOp.clientDisconnect c :: rest => RegOp.disconnect c :: projClient rest
  | _ :: rest => projClient rest

/-- The two registries evolve independently: if both projected runs succeed,
the system run succeeds with the pair of their results. -/
lemma sysRun_of_proj (ops : List SysOp) :
    ∀ e c m₁ m₂, runOps e (projEsp ops) = .ok m₁ →
    runOps c (projClient ops) = .ok m₂ →
    sysRun (e, c) ops = .ok (m₁, m₂) := by
  induction ops with
  | nil =>
      intro e c m₁ m₂ h₁ h₂
      simp only [runOps] at h₁ h₂
      cases h₁
      cases h₂
      rfl
  | cons op rest ih =>
      intro e c m₁ m₂ h₁ h₂
      cases op with
      | espConnect a =>
          simp only [projEsp, runOps] at h₁
          exact ih _ _ _ _ h₁ h₂
      | espDisconnect a =>
          simp only [projEsp, runOps] at h₁
          simp only [sysRun]
          cases hd : ConnectionManager.disconnect e a with
          | ok s' =>
              rw [hd] at h₁
              exact ih _ _ _ _ h₁ h₂
          | error err =>
              rw [hd] at h₁
              cases h₁
      | clientConnect a =>
          simp only [projClient, runOps] at h₂
          exact ih _ _ _ _ h₁ h₂
      | clientDisconnect a =>
          simp only [projClient, runOps] at h₂
          simp only [sysRun]
          cases hd : ConnectionManager.disconnect c a with
          | ok s' =>
              rw [hd] at h₂
              exact ih _ _ _ _ h₁ h₂
          | error err =>
              rw [hd] at h₂
              cases h₂
      | espBroadcast => exact ih _ _ _ _ h₁ h₂
      | clientBroadcast => exact ih _ _ _ _ h₁ h₂

/-- C9 — counterexample. The claim says connect never introduces a duplicate
entry for an already-registered channel; in the code `connect` runs
`self.clients.append(ws)` unconditionally, so connecting channel 0 twice to
the esp registry leaves it registered twice. -/
theorem connect_duplicate_entry :
    sysRun ([], []) [SysOp.espConnect 0, SysOp.espConnect 0] = .ok ([0, 0], []) ∧
    ¬ ([0, 0] : List Channel).Nodup := by
  constructor
  · rfl
  · decide

/-- C9 (amended) — provided each channel is connected at most once across the
two registries and every disconnect targets a channel currently present in
its registry, then after any sequence of connect/disconnect/broadcast
operations each channel appears in at most one registry, and within it at
most once. (The original claim's assertion that `connect` itself never
introduces a duplicate fails on the code: it appends unconditionally.) -/
theorem registry_no_duplicates_under_unique_connects (ops : List SysOp)
    (hc : (connects (projEsp ops) ++ connects (projClient ops)).Nodup)
    (h₁ : presenceValid [] (projEsp ops) = true)
    (h₂ : presenceValid [] (projClient ops) = true) :
    ∃ m₁ m₂, sysRun ([], []) ops = .ok (m₁, m₂) ∧
      m₁.Nodup ∧ m₂.Nodup ∧ ∀ x, x ∈ m₁ → x ∉ m₂ := by
  rw [List.nodup_append] at hc
  rcases hc with ⟨hcE, hcC, hdisj⟩
  rcases runOps_mem (projEsp ops) [] List.nodup_nil hcE (by simp) h₁ with
    ⟨m₁, hr₁, hnd₁, hmem₁⟩
  rcases runOps_mem (projClient ops) [] List.nodup_nil hcC (by simp) h₂ with
    ⟨m₂, hr₂, hnd₂, hmem₂⟩
  refine ⟨m₁, m₂, sysRun_of_proj ops [] [] m₁ m₂ hr₁ hr₂, hnd₁, hnd₂, ?_⟩
  intro x hx₁ hx₂
  have he : x ∈ connects (projEsp ops) := by
    have := (hmem₁ x).mp hx₁
    simpa using this.1
  have hcl : x ∈ connects (projClient ops) := by
    have := (hmem₂ x).mp hx₂
    simpa using this.1
  exact hdisj he hcl

/-- C9 — witness: the amended theorem applied to the concrete sequence
esp-connect 1, client-connect 2, a broadcast on each side, esp-disconnect 1. -/
theorem registry_no_duplicates_witness :
    ∃ m₁ m₂,
      sysRun ([], []) [SysOp.espConnect 1, SysOp.clientConnect 2,
        SysOp.espBroadcast, SysOp.clientBroadcast, SysOp.espDisconnect 1] = .ok (m₁, m₂) ∧
      m₁.Nodup ∧ m₂.Nodup ∧ ∀ x, x ∈ m₁ → x ∉ m₂ :=
  registry_no_duplicates_under_unique_connects
    [SysOp.espConnect 1, SysOp.clientConnect 2, SysOp.espBroadcast,
      SysOp.clientBroadcast, SysOp.espDisconnect 1]
    (by decide) (by decide) (by decide)

/-- `PumpStatus` (main.py lines 86-89): the pydantic model's three fields.
Python `int` is unbounded, hence `Int`; the range constraint on
`remaining_time` lives in `PumpStatus.parse` below. -/
structure PumpStatus where
  physical_switch : Bool
  motor_state : Bool
  remaining_time : Int
deriving DecidableEq

/-- Pydantic validation of a `PumpStatus` body (main.py line 89):
`remaining_time` must satisfy `ge=0` and `lt=24*3600`; out-of-range input
raises a validation error (modelled as `none`). -/
def PumpStatus.parse (physical_switch motor_state : Bool) (remaining_time : Int) :
    Option PumpStatus :=
  if 0 ≤ remaining_time ∧ remaining_time < 24 * 3600 then
    some ⟨physical_switch, motor_state, remaining_time⟩
  else none

/-- The relay messages the handlers build (main.py lines 119, 125, 131, 142,
157): the three command dicts and the `status.dict()` record. -/
inductive Msg
  | toggle
  | off
  | timer (hours minutes : Int)
  | statusOf (s : PumpStatus)
deriving DecidableEq

/-- Python `json.dumps` rendering of a `bool`. -/
def pyBool : Bool → String
  | true => "true"
  | false => "false"

/-- `json.dumps(message)` (main.py line 74) on the four message shapes, with
Python's default separators. -/
def json_dumps : Msg → String
  | Msg.toggle => "\x7b\"action\": \"TOGGLE\"\x7d"
  | Msg.off => "\x7b\"action\": \"OFF\"\x7d"
  | Msg.timer h m =>
      "\x7b\"action\": \"TIMER\", \"hours\": " ++ toString h ++
        ", \"minutes\": " ++ toString m ++ "\x7d"
  | Msg.statusOf s =>
      "\x7b\"physical_switch\": " ++ pyBool s.physical_switch ++
        ", \"motor_state\": " ++ pyBool s.motor_state ++
        ", \"remaining_time\": " ++ toString s.remaining_time ++ "\x7d"

/-- The observable outcome of one `await ws.send_text(data)` attempt inside
the broadcast loop: the channel, the payload handed to it, and whether the
send succeeded (`ok = false` means the send raised and the bare `except`
swallowed it, main.py lines 76-79). -/
structure SendOutcome where
  ws : Channel
  payload : String
  ok : Bool
deriving DecidableEq

/-- `ConnectionManager.broadcast` (main.py lines 73-79): serializes the
message once (`data = json.dumps(message)`), then loops over `self.clients`
sending `data` to each; a send failure is caught by the bare `except` and
only logged. The method never mutates `self.clients`, so the registry after
the call (second component) is the unchanged client list. `sendFails` says
which channels' sends raise. -/
def ConnectionManager.broadcast (clients : List Channel) (sendFails : Channel → Bool)
    (message : Msg) : List SendOutcome × List Channel :=
  let data := json_dumps message
  (clients.map (fun ws => { ws := ws, payload := data, ok := !(sendFails ws) }), clients)

/-- A send-failure pattern in which exactly the channel `f` fails. -/
def failsOnly (f : Channel) : Channel → Bool := fun c => c == f

lemma broadcast_send_count (data : String) (f c : Channel) (hcf : c ≠ f) :
    ∀ clients : List Channel,
      ((clients.map (fun ws => SendOutcome.mk ws data (!(failsOnly f ws)))).filter
        (fun o => o.ws == c && o.ok)).length = clients.count c := by
  intro clients
  induction clients with
  | nil => rfl
  | cons w rest ih =>
      by_cases hw : w = c
      · subst hw
        have hpred : ((SendOutcome.mk w data (!(failsOnly f w))).ws == w &&
            (SendOutcome.mk w data (!(failsOnly f w))).ok) = true := by
          simp [failsOnly, hcf]
        simp only [List.map_cons, List.filter_cons, hpred, if_true,
          List.length_cons, List.count_cons, ih]
        simp
      · have hpred : ((SendOutcome.mk w data (!(failsOnly f w))).ws == c &&
            (SendOutcome.mk w data (!(failsOnly f w))).ok) = false := by
          simp [hw]
        rw [List.map_cons, List.filter_cons, hpred]
        simp only [Bool.false_eq_true, if_false, List.count_cons, ih]
        simp [hw]

/-- C2 — counterexample. Registry [0, 1], channel 0's send fails during a
broadcast: the claim says 0 is no longer a member afterwards, but
`broadcast` never touches `self.clients` (its `except` only logs), so 0 is
still registered — and the outcome list confirms 0's send did fail. -/
theorem broadcast_failed_channel_not_removed :
    (ConnectionManager.broadcast [0, 1] (failsOnly 0) Msg.toggle).1.map SendOutcome.ok
      = [false, true] ∧
    (ConnectionManager.broadcast [0, 1] (failsOnly 0) Msg.toggle).2 = [0, 1] ∧
    0 ∈ (ConnectionManager.broadcast [0, 1] (failsOnly 0) Msg.toggle).2 := by
  refine ⟨rfl, rfl, ?_⟩
  simp [ConnectionManager.broadcast]

/-- C2 (amended) — for every duplicate-free group in which exactly one
member `f` fails, after `broadcast` the registry is unchanged — so the
failing channel `f` is still registered (the code performs no self-healing
deregistration) — while every other member received exactly one copy of the
message and remains registered. -/
theorem broadcast_failure_keeps_membership (clients : List Channel) (f : Channel)
    (msg : Msg) (hnd : clients.Nodup) (hf : f ∈ clients) :
    (ConnectionManager.broadcast clients (failsOnly f) msg).2 = clients ∧
    f ∈ (ConnectionManager.broadcast clients (failsOnly f) msg).2 ∧
    ∀ c ∈ clients, c ≠ f →
      ((ConnectionManager.broadcast clients (failsOnly f) msg).1.filter
        (fun o => o.ws == c && o.ok)).length = 1 ∧
      c ∈ (ConnectionManager.broadcast clients (failsOnly f) msg).2 := by
  refine ⟨rfl, hf, ?_⟩
  intro c hc hcf
  refine ⟨?_, hc⟩
  have := broadcast_send_count (json_dumps msg) f c hcf clients
  simpa [ConnectionManager.broadcast, List.count_eq_one_of_mem hnd hc] using this

/-- C2 — witness: the amended theorem at group [0, 1] with channel 0
failing, instantiated at the surviving member 1. -/
theorem broadcast_failure_keeps_membership_witness :
    ([0, 1] : List Channel).Nodup ∧ 0 ∈ ([0, 1] : List Channel) ∧
    ((ConnectionManager.broadcast [0, 1] (failsOnly 0) Msg.off).2 = [0, 1] ∧
     0 ∈ (ConnectionManager.broadcast [0, 1] (failsOnly 0) Msg.off).2 ∧
     ∀ c ∈ ([0, 1] : List Channel), c ≠ 0 →
       ((ConnectionManager.broadcast [0, 1] (failsOnly 0) Msg.off).1.filter
         (fun o => o.ws == c && o.ok)).length = 1 ∧
       c ∈ (ConnectionManager.broadcast [0, 1] (failsOnly 0) Msg.off).2) :=
  ⟨by decide, by decide,
    broadcast_failure_keeps_membership [0, 1] 0 Msg.off (by decide) (by decide)⟩

/-- The body the endpoints return on success:
`return {"status": "ok"}` serialized. -/
def ok_payload : String := "\x7b\"status\": \"ok\"\x7d"

/-- The distinct outcomes a request can be reported with (the middleware's
response taxonomy, main.py lines 19-47, plus the handlers' 200 body). -/
inductive ApiResponse
  | ok (body : String)
  | validationError
  | payloadTooLarge
  | httpError (code : Nat)
  | internalError
deriving DecidableEq

/-- The HTTP status code each outcome is reported with (main.py lines 25,
33, 38, 44 and the default 200). -/
def ApiResponse.statusCode : ApiResponse → Nat
  | .ok _ => 200
  | .validationError => 422
  | .payloadTooLarge => 413
  | .httpError c => c
  | .internalError => 500

/-- `pump_toggle` (main.py lines 117-120): broadcasts `{action: TOGGLE}` to
the esp group and returns `{"status": "ok"}`. Returns (response, send
outcomes, esp registry after). -/
def pump_toggle (espClients : List Channel) (sendFails : Channel → Bool) :
    ApiResponse × List SendOutcome × List Channel :=
  let r := ConnectionManager.broadcast espClients sendFails Msg.toggle
  (ApiResponse.ok ok_payload, r.1, r.2)

/-- C3 — for every group (including the empty one) and every send-failure
pattern, the broadcast triggered by the command endpoint completes as a
total function (the bare `except` around each send means no exception
escapes `broadcast`): every registered channel gets exactly one send
attempt — a failure on one channel never cuts off the rest — and the HTTP
caller always gets the success response, never a delivery error. -/
theorem broadcast_never_raises_endpoint_ok (clients : List Channel)
    (sendFails : Channel → Bool) :
    (pump_toggle clients sendFails).1 = ApiResponse.ok ok_payload ∧
    (pump_toggle clients sendFails).2.1.map SendOutcome.ws = clients ∧
    (pump_toggle [] sendFails).2.1 = [] := by
  refine ⟨rfl, ?_, rfl⟩
  simp only [pump_toggle, ConnectionManager.broadcast, List.map_map]
  have hid : (SendOutcome.ws ∘ fun ws : Channel =>
      SendOutcome.mk ws (json_dumps Msg.toggle) (!sendFails ws)) = id := rfl
  rw [hid, List.map_id]

/-- A registry mutation that can interleave with the broadcast loop at an
`await` suspension point: a connect appends, a disconnect removes (modelled
here for channels actually present, the successful `list.remove` path). -/
inductive RegMut
  | conn (c : Channel)
  | disc (c : Channel)
deriving DecidableEq

/-- Apply one interleaved mutation to the live `self.clients` list. -/
def applyMut (cl : List Channel) : RegMut → List Channel
  | RegMut.conn c => cl ++ [c]
  | RegMut.disc c => cl.erase c

/-- `for ws in self.clients` (main.py line 75) iterates the LIVE backing
list through a Python list-iterator, which is a bare index cursor: each step
reads `clients[i]` and advances `i`, and the loop ends when `i` runs off the
end of the list as it is NOW. `sched` lists the mutations that other tasks
run at the suspension point before each send (`await ws.send_text` yields
control); after `sched` is exhausted no further mutation interleaves.
Returns the channels the loop sends to from cursor position `i` onward. -/
def liveBroadcast : List (List RegMut) → List Channel → Nat → List Channel
  | [], cl, i => cl.drop i
  | muts :: rest, cl, i =>
      match (muts.foldl applyMut cl)[i]? with
      | some ws => ws :: liveBroadcast rest (muts.foldl applyMut cl) (i + 1)
      | none => []

/-- The live list after the whole schedule has run. -/
def liveFinal (sched : List (List RegMut)) (cl : List Channel) : List Channel :=
  (sched.flatten).foldl applyMut cl

/-- C5 — counterexample. Registry [1, 2]; the broadcast loop sends to 1,
then at the suspension point another task disconnects 1 (already served).
Because the loop iterates the live list with an index cursor — not a
snapshot — the cursor now points past 2, the loop ends, and 2 never
receives the message, although 2 was a member when the broadcast started
and remained a member throughout. Under the claimed snapshot semantics the
delivered set would have been fixed at start as [1, 2]. -/
theorem broadcast_live_iteration_skips_member :
    liveBroadcast [[], [RegMut.disc 1]] [1, 2] 0 = [1] ∧
    (2 : Channel) ∈ ([1, 2] : List Channel) ∧
    (2 : Channel) ∈ liveFinal [[], [RegMut.disc 1]] [1, 2] ∧
    (2 : Channel) ∉ liveBroadcast [[], [RegMut.disc 1]] [1, 2] 0 := by
  refine ⟨rfl, by decide, ?_, ?_⟩ <;> decide

/-- C5 (amended) — `broadcast` serializes the message exactly once per call:
the one `json.dumps` result is the payload handed to every send. But it
iterates the live backing collection, not a point-in-time copy; only when no
mutation interleaves with the loop does the delivered list equal the member
list at the start of the call. -/
theorem broadcast_serializes_once_live_iteration (clients : List Channel)
    (sendFails : Channel → Bool) (msg : Msg) :
    (∀ o ∈ (ConnectionManager.broadcast clients sendFails msg).1,
      o.payload = json_dumps msg) ∧
    liveBroadcast [] clients 0 = clients := by
  constructor
  · intro o ho
    simp only [ConnectionManager.broadcast, List.mem_map] at ho
    rcases ho with ⟨ws, _, rfl⟩
    rfl
  · simp [liveBroadcast]

/-- C5 — witness: the amended theorem applied to the one-member group [3]
with no failures, at the outcome that group produces. -/
theorem broadcast_serializes_once_witness :
    SendOutcome.mk 3 (json_dumps Msg.toggle) true ∈
      (ConnectionManager.broadcast [3] (fun _ => false) Msg.toggle).1 ∧
    (SendOutcome.mk 3 (json_dumps Msg.toggle) true).payload = json_dumps Msg.toggle :=
  ⟨by simp [ConnectionManager.broadcast],
   (broadcast_serializes_once_live_iteration [3] (fun _ => false) Msg.toggle).1
     (SendOutcome.mk 3 (json_dumps Msg.toggle) true)
     (by simp [ConnectionManager.broadcast])⟩

/-- Which of the two module-level managers a broadcast targets
(`esp_manager` / `client_manager`, main.py lines 82-83). -/
inductive GroupSide
  | esp
  | client
deriving DecidableEq

/-- What one HTTP handler invocation produces: the response and the
broadcasts it performed, in order. -/
structure EndpointResult where
  response : ApiResponse
  broadcasts : List (GroupSide × Msg)
deriving DecidableEq

/-- `PumpTimerRequest` validation (main.py lines 92-94): `hours` with
`ge=0, le=23`, `minutes` with `ge=0, le=59`. -/
structure PumpTimerRequest where
  hours : Int
  minutes : Int
deriving DecidableEq

/-- Pydantic validation of a timer body; out-of-range input raises a
validation error before the handler body runs (modelled as `none`). -/
def PumpTimerRequest.parse (hours minutes : Int) : Option PumpTimerRequest :=
  if 0 ≤ hours ∧ hours ≤ 23 ∧ 0 ≤ minutes ∧ minutes ≤ 59 then
    some ⟨hours, minutes⟩
  else none

/-- `pump_timer` (main.py lines 129-132): on a valid body, broadcast
`{action: TIMER, hours, minutes}` to the esp group and return ok; an
invalid body never reaches the handler. -/
def pump_timer (hours minutes : Int) : EndpointResult :=
  match PumpTimerRequest.parse hours minutes with
  | none => ⟨ApiResponse.validationError, []⟩
  | some req =>
      ⟨ApiResponse.ok ok_payload, [(GroupSide.esp, Msg.timer req.hours req.minutes)]⟩

/-- The initial value of the module-level `_last_status` (main.py line
146). -/
def _last_status : PumpStatus :=
  PumpStatus.mk false false 0

/-- `get_pump_status` (main.py lines 148-150): returns the cached record. -/
def get_pump_status (cache : PumpStatus) : PumpStatus := cache

/-- The SECOND `POST /pump/status` registration (main.py lines 153-158): on
a valid body it assigns `_last_status = status`, broadcasts `status.dict()`
to the client group and returns ok. Takes and returns the cache. -/
def pump_status (cache : PumpStatus) (physical_switch motor_state : Bool)
    (remaining_time : Int) : PumpStatus × EndpointResult :=
  match PumpStatus.parse physical_switch motor_state remaining_time with
  | none => (cache, ⟨ApiResponse.validationError, []⟩)
  | some r => (r, ⟨ApiResponse.ok ok_payload, [(GroupSide.client, Msg.statusOf r)]⟩)

/-- The FIRST `POST /pump/status` registration (main.py lines 135-143): same
broadcast and response, but it never writes `_last_status`. -/
def pump_status_first_registration (cache : PumpStatus)
    (physical_switch motor_state : Bool) (remaining_time : Int) :
    PumpStatus × EndpointResult :=
  match PumpStatus.parse physical_switch motor_state remaining_time with
  | none => (cache, ⟨ApiResponse.validationError, []⟩)
  | some r => (cache, ⟨ApiResponse.ok ok_payload, [(GroupSide.client, Msg.statusOf r)]⟩)

/-- C4 — the Status Cache round-trip: an accepted status report stored by
the cache-writing handler is returned unchanged by a subsequent
`get_pump_status`, and before any report was ever accepted the getter
returns the default record (false, false, 0). -/
theorem status_cache_roundtrip (cache : PumpStatus) (ps ms : Bool) (rt : Int)
    (r : PumpStatus) (h : PumpStatus.parse ps ms rt = some r) :
    get_pump_status (pump_status cache ps ms rt).1 = r ∧
    get_pump_status _last_status = PumpStatus.mk false false 0 := by
  constructor
  · simp [pump_status, h, get_pump_status]
  · rfl

/-- C4 — witness: the round-trip theorem at the record (true, true, 120)
stored over the initial cache. -/
theorem status_cache_roundtrip_witness :
    PumpStatus.parse true true 120 = some (PumpStatus.mk true true 120) ∧
    get_pump_status (pump_status _last_status true true 120).1 =
      PumpStatus.mk true true 120 ∧
    get_pump_status _last_status = PumpStatus.mk false false 0 :=
  ⟨by decide,
   (status_cache_roundtrip _last_status true true 120
     (PumpStatus.mk true true 120) (by decide)).1,
   (status_cache_roundtrip _last_status true true 120
     (PumpStatus.mk true true 120) (by decide)).2⟩

/-- C6 — for every cached record and report flags: a status report with
`remaining_time = 86400` fails validation (`lt=24*3600` is exclusive), so
the handler body never runs — the cache is unchanged and no broadcast
happens; a report with `remaining_time = 86399` is accepted, replaces the
cache wholesale, and triggers exactly one broadcast to the client group
carrying the full record. -/
theorem status_report_boundary (cache : PumpStatus) (ps ms : Bool) :
    pump_status cache ps ms 86400 =
      (cache, ⟨ApiResponse.validationError, []⟩) ∧
    pump_status cache ps ms 86399 =
      (PumpStatus.mk ps ms 86399,
       ⟨ApiResponse.ok ok_payload,
        [(GroupSide.client, Msg.statusOf (PumpStatus.mk ps ms 86399))]⟩) := by
  constructor
  · have h : PumpStatus.parse ps ms 86400 = none := by
      simp [PumpStatus.parse]
    simp [pump_status, h]
  · have h : PumpStatus.parse ps ms 86399 = some (PumpStatus.mk ps ms 86399) := by
      simp [PumpStatus.parse]
    simp [pump_status, h]

/-- C7 — a timer command whose hours lie in [0, 23] and minutes in [0, 59]
is accepted and produces exactly one broadcast of
`{action: TIMER, hours, minutes}` to the device group; any out-of-range
body is rejected with a validation failure and no broadcast occurs. -/
theorem timer_validation_boundary (hours minutes : Int) :
    ((0 ≤ hours ∧ hours ≤ 23 ∧ 0 ≤ minutes ∧ minutes ≤ 59) →
      pump_timer hours minutes =
        ⟨ApiResponse.ok ok_payload, [(GroupSide.esp, Msg.timer hours minutes)]⟩) ∧
    (¬ (0 ≤ hours ∧ hours ≤ 23 ∧ 0 ≤ minutes ∧ minutes ≤ 59) →
      pump_timer hours minutes = ⟨ApiResponse.validationError, []⟩) := by
  constructor
  · intro h
    simp [pump_timer, PumpTimerRequest.parse, h]
  · intro h
    simp [pump_timer, PumpTimerRequest.parse, h]

/-- C7 — witness: hours=23, minutes=59 accepted with the TIMER broadcast;
hours=24 and minutes=60 each rejected with no broadcast. -/
theorem timer_validation_boundary_witness :
    pump_timer 23 59 =
      ⟨ApiResponse.ok ok_payload, [(GroupSide.esp, Msg.timer 23 59)]⟩ ∧
    pump_timer 24 59 = ⟨ApiResponse.validationError, []⟩ ∧
    pump_timer 23 60 = ⟨ApiResponse.validationError, []⟩ :=
  ⟨(timer_validation_boundary 23 59).1 (by norm_num),
   (timer_validation_boundary 24 59).2 (by norm_num),
   (timer_validation_boundary 23 60).2 (by norm_num)⟩

/-- How the downstream of the middleware (`call_next`, which performs route
dispatch, body parsing and the handler) can end (main.py lines 29-46). -/
inductive HandlerOutcome
  | success (r : ApiResponse)
  | raisesValidationError
  | raisesHTTPException (code : Nat)
  | raisesOther
deriving DecidableEq

/-- `validate_and_handle_errors` (main.py lines 19-47): reads the body;
when it exceeds `max_body = 2 * 1024` bytes, answers 413 "Payload too
large" WITHOUT calling `call_next` (second component `false`: parsing and
validation never ran); otherwise it invokes `call_next` and maps each
escaping exception class to its distinct response. -/
def validate_and_handle_errors (bodyLen : Nat) (inner : HandlerOutcome) :
    ApiResponse × Bool :=
  if bodyLen > 2 * 1024 then (ApiResponse.payloadTooLarge, false)
  else
    match inner with
    | HandlerOutcome.success r => (r, true)
    | HandlerOutcome.raisesValidationError => (ApiResponse.validationError, true)
    | HandlerOutcome.raisesHTTPException c => (ApiResponse.httpError c, true)
    | HandlerOutcome.raisesOther => (ApiResponse.internalError, true)

/-- C8 — any request body of strictly more than 2048 bytes is answered 413
before `call_next` runs (so before any parsing or validation), an outcome
distinct — as a constructor and as a status code — from the 422 validation
failure; a body of at most 2048 bytes (in particular exactly 2048) passes
the size guard and proceeds into `call_next`. -/
theorem size_guard_boundary (bodyLen : Nat) (inner : HandlerOutcome) :
    (2048 < bodyLen →
      validate_and_handle_errors bodyLen inner = (ApiResponse.payloadTooLarge, false) ∧
      ApiResponse.payloadTooLarge ≠ ApiResponse.validationError ∧
      ApiResponse.payloadTooLarge.statusCode = 413 ∧
      ApiResponse.validationError.statusCode = 422) ∧
    (bodyLen ≤ 2048 →
      (validate_and_handle_errors bodyLen inner).2 = true) := by
  constructor
  · intro h
    refine ⟨?_, by decide, rfl, rfl⟩
    simp [validate_and_handle_errors, h]
  · intro h
    have h' : ¬ bodyLen > 2 * 1024 := by omega
    cases inner <;> simp [validate_and_handle_errors, h']

/-- C8 — witness: a 2049-byte body is rejected as payload-too-large without
invoking the downstream; a 2048-byte one reaches it. -/
theorem size_guard_boundary_witness :
    (validate_and_handle_errors 2049 HandlerOutcome.raisesOther =
      (ApiResponse.payloadTooLarge, false) ∧
     ApiResponse.payloadTooLarge ≠ ApiResponse.validationError ∧
     ApiResponse.payloadTooLarge.statusCode = 413 ∧
     ApiResponse.validationError.statusCode = 422) ∧
    (validate_and_handle_errors 2048 HandlerOutcome.raisesOther).2 = true :=
  ⟨(size_guard_boundary 2049 HandlerOutcome.raisesOther).1 (by norm_num),
   (size_guard_boundary 2048 HandlerOutcome.raisesOther).2 (by norm_num)⟩

/-- HTTP methods used by the app's routes. -/
inductive Method
  | get
  | post
deriving DecidableEq

/-- The app's route handlers, one per decorated function. -/
inductive RouteHandler
  | pumpToggle
  | pumpOff
  | pumpTimer
  | pumpStatusFirst
  | getPumpStatus
  | pumpStatusSecond
deriving DecidableEq

/-- The route table in registration (decorator execution) order: main.py
lines 117, 123, 129, 135, 148 and 153. `POST /pump/status` is registered
twice. -/
def routes : List (Method × String × RouteHandler) :=
  [(Method.post, "/pump/toggle", RouteHandler.pumpToggle),
   (Method.post, "/pump/off", RouteHandler.pumpOff),
   (Method.post, "/pump/timer", RouteHandler.pumpTimer),
   (Method.post, "/pump/status", RouteHandler.pumpStatusFirst),
   (Method.get, "/pump/status", RouteHandler.getPumpStatus),
   (Method.post, "/pump/status", RouteHandler.pumpStatusSecond)]

/-- Starlette route resolution: the request is handled by the FIRST
registered route whose method and path fully match. -/
def dispatch (m : Method) (path : String) : Option RouteHandler :=
  (routes.find? (fun r => r.1 == m && r.2.1 == path)).map (fun r => r.2.2)

/-- C10 — route dispatch for `POST /pump/status` selects the
first-registered handler, which on an accepted report broadcasts the record
to the client group and returns ok while leaving the cached `_last_status`
unchanged; only the second-registered handler — the one dispatch never
selects — writes the cache. So which behaviour a request gets is decided
entirely by dispatch order over the duplicate registrations. -/
theorem duplicate_route_first_handler_shadows :
    dispatch Method.post "/pump/status" = some RouteHandler.pumpStatusFirst ∧
    ∀ (cache : PumpStatus) (ps ms : Bool) (rt : Int) (r : PumpStatus),
      PumpStatus.parse ps ms rt = some r →
        (pump_status_first_registration cache ps ms rt).1 = cache ∧
        (pump_status_first_registration cache ps ms rt).2 =
          ⟨ApiResponse.ok ok_payload, [(GroupSide.client, Msg.statusOf r)]⟩ ∧
        (pump_status cache ps ms rt).1 = r := by
  constructor
  · rfl
  · intro cache ps ms rt r h
    refine ⟨?_, ?_, ?_⟩ <;> simp [pump_status_first_registration, pump_status, h]

/-- C10 — witness: the theorem applied to the accepted report
(true, false, 10) over the initial cache. -/
theorem duplicate_route_first_handler_shadows_witness :
    PumpStatus.parse true false 10 = some (PumpStatus.mk true false 10) ∧
    (pump_status_first_registration _last_status true false 10).1 = _last_status ∧
    (pump_status _last_status true false 10).1 = PumpStatus.mk true false 10 :=
  ⟨by decide,
   (duplicate_route_first_handler_shadows.2 _last_status true false 10
     (PumpStatus.mk true false 10) (by decide)).1,
   (duplicate_route_first_handler_shadows.2 _last_status true false 10
     (PumpStatus.mk true false 10) (by decide)).2.2⟩
